import Mathlib

/-!
Verification development for the Action Recording & Export Pipeline
(juud-8/pen_pal).  The TypeScript sources are shallowly embedded:

* JavaScript numbers are modelled as `ℚ` (exact rational arithmetic) or
  `ℤ` for integral millisecond quantities; `Date.getTime()` is abstracted
  as a parameter `getTime : String → ℤ` mapping timestamp strings to
  epoch milliseconds.
* JS objects with optional fields become structures with `Option` fields,
  matching the `recordedActionSchema` zod object of `shared/schema.ts`
  (one object with optional fields, not a tagged union).
* JS truthiness tests on strings (`action.element?.id ? … : …`) are
  embedded as "present and non-empty" tests.
* `JSON.stringify` / `JSON.parse` are modelled at the level of JSON value
  trees (`Jv`): the runtime's printer/parser pair is inverse on such
  trees, so round-trip claims are settled on the trees themselves.
-/

/-- The `type` tag of `recordedActionSchema` (`z.enum(['click','type','capture'])`). -/
inductive ActionType where
  | click : ActionType
  | type : ActionType
  | capture : ActionType
deriving DecidableEq, Repr

/-- The `coordinates` object of `recordedActionSchema`: `{ x: z.number(), y: z.number() }`. -/
structure Coordinates where
  x : ℚ
  y : ℚ
deriving DecidableEq, Repr

/-- The `element` object of `recordedActionSchema`: all three fields optional strings. -/
structure ElementInfo where
  id : Option String
  text : Option String
  tagName : Option String
deriving DecidableEq, Repr

/-- Structure `RecordedAction` from `shared/schema.ts`: one object with a `type` tag and
optional per-variant fields, exactly as the zod schema declares them. -/
structure RecordedAction where
  type : ActionType
  timestamp : String
  coordinates : Option Coordinates
  element : Option ElementInfo
  text : Option String
  content : Option String
  description : Option String
deriving DecidableEq, Repr

/-- Test `prev[prev.length - 1].type === 'type'` guarded by `prev.length > 0`
(from `addAction` in `client/src/pages/Home.tsx`). -/
def lastIsTypeAction (prev : List RecordedAction) : Bool :=
  match prev.getLast? with
  | some a => a.type == ActionType.type
  | none => false

/-- Function `addAction` from `client/src/pages/Home.tsx` (lines 123–131): for `type`
actions, replace the last action when it is also a `type` action; otherwise
append. -/
def addAction (prev : List RecordedAction) (action : RecordedAction) : List RecordedAction :=
  if action.type == ActionType.type && lastIsTypeAction prev then
    prev.dropLast ++ [action]
  else
    prev ++ [action]

/-- A pure `type` (keystroke) action carrying the field's full current text. -/
def mkTypeAction (ts txt : String) : RecordedAction :=
  { type := ActionType.type, timestamp := ts, coordinates := none, element := none,
    text := some txt, content := none, description := none }

/-- A pure `click` action. -/
def mkClickAction (ts : String) (x y : ℚ) (el : Option ElementInfo) : RecordedAction :=
  { type := ActionType.click, timestamp := ts, coordinates := some ⟨x, y⟩, element := el,
    text := none, content := none, description := none }

/-- A pure `capture` action. -/
def mkCaptureAction (ts content : String) : RecordedAction :=
  { type := ActionType.capture, timestamp := ts, coordinates := none, element := none,
    text := none, content := some content, description := none }

/-- C1: `addAction` appends, except that a new `type` action replaces a trailing
`type` action wholesale; the typing burst `"a"`, `"ab"`, `"abc"` collapses to a
single `TypeText "abc"`, while identical clicks around a keystroke are all kept. -/
theorem addAction_coalescing_rule :
    (∀ (s : List RecordedAction) (a : RecordedAction),
      addAction s a =
        if a.type = ActionType.type ∧ s.getLast?.map RecordedAction.type = some ActionType.type
        then s.dropLast ++ [a]
        else s ++ [a]) ∧
    (addAction (addAction (addAction [] (mkTypeAction "t1" "a")) (mkTypeAction "t2" "ab"))
        (mkTypeAction "t3" "abc") = [mkTypeAction "t3" "abc"]) ∧
    (addAction (addAction (addAction [] (mkClickAction "t1" 1 2 none)) (mkTypeAction "t2" "x"))
        (mkClickAction "t3" 1 2 none) =
      [mkClickAction "t1" 1 2 none, mkTypeAction "t2" "x", mkClickAction "t3" 1 2 none]) := by
  refine ⟨?_, by decide, by decide⟩
  intro s a
  unfold addAction lastIsTypeAction
  by_cases ha : a.type = ActionType.type
  · cases hl : s.getLast? with
    | none => simp [hl, ha]
    | some last =>
        by_cases hlt : last.type = ActionType.type
        · simp [hl, ha, hlt]
        · simp [hl, ha, hlt]
  · cases hl : s.getLast? with
    | none => simp [hl, ha]
    | some last => simp [hl, ha]

/-- No two consecutive actions in a sequence are both `type` actions. -/
def noConsecutiveTypeActions (s : List RecordedAction) : Prop :=
  List.Chain' (fun x y => ¬(x.type = ActionType.type ∧ y.type = ActionType.type)) s

lemma addAction_preserves_noConsecutive (s : List RecordedAction) (a : RecordedAction)
    (h : noConsecutiveTypeActions s) : noConsecutiveTypeActions (addAction s a) := by
  unfold noConsecutiveTypeActions at h ⊢
  unfold addAction
  by_cases hcond : (a.type == ActionType.type && lastIsTypeAction s) = true
  · simp only [hcond, if_true]
    have hlast : lastIsTypeAction s = true := (Bool.and_eq_true _ _ |>.mp hcond).2
    unfold lastIsTypeAction at hlast
    cases hl : s.getLast? with
    | none => rw [hl] at hlast; exact absurd hlast (by simp)
    | some last =>
        rw [hl] at hlast
        have hlt : last.type = ActionType.type := by simpa using hlast
        have hsplit : s.dropLast ++ [last] = s := List.dropLast_append_getLast? last hl
        rw [← hsplit] at h
        obtain ⟨h1, _, h3⟩ := List.chain'_append.mp h
        refine List.chain'_append.mpr ⟨h1, List.chain'_singleton a, ?_⟩
        intro x hx y hy
        simp only [List.head?, Option.mem_def, Option.some.injEq] at hy
        subst hy
        intro hpair
        exact (h3 x hx last (by simp)) ⟨hpair.1, hlt⟩
  · simp only [hcond, if_false]
    refine List.chain'_append.mpr ⟨h, List.chain'_singleton a, ?_⟩
    intro x hx y hy
    simp only [List.head?, Option.mem_def, Option.some.injEq] at hy
    subst hy
    intro hpair
    apply hcond
    rw [Bool.and_eq_true]
    constructor
    · simp [hpair.2]
    · unfold lastIsTypeAction
      rw [Option.mem_def] at hx
      rw [hx]
      simp [hpair.1]

/-- C10: every sequence reachable from `[]` by `addAction` has no two
consecutive `type` actions, and each `addAction` call leaves every element
before the last one unchanged (the result extends `s.dropLast`). -/
theorem addAction_reachable_no_consecutive_types :
    (∀ l : List RecordedAction, noConsecutiveTypeActions (l.foldl addAction [])) ∧
    (∀ (s : List RecordedAction) (a : RecordedAction),
      ∃ t, addAction s a = s.dropLast ++ t) := by
  constructor
  · have key : ∀ (l s : List RecordedAction), noConsecutiveTypeActions s →
        noConsecutiveTypeActions (l.foldl addAction s) := by
      intro l
      induction l with
      | nil => intro s hs; exact hs
      | cons a l ih => intro s hs; exact ih _ (addAction_preserves_noConsecutive s a hs)
    intro l
    exact key l [] (by simp [noConsecutiveTypeActions])
  · intro s a
    unfold addAction
    split
    · exact ⟨[a], rfl⟩
    · rcases List.eq_nil_or_concat s with rfl | ⟨s', b, rfl⟩
      · exact ⟨[a], rfl⟩
      · exact ⟨[b, a], by simp⟩

/-- A JSON value tree.  `JSON.stringify`/`JSON.parse` of the browser runtime
are modelled as the identity pair on these trees (they are mutually inverse
on finite JSON data); numbers are exact rationals. -/
inductive Jv where
  | jnull : Jv
  | jbool : Bool → Jv
  | jnum : ℚ → Jv
  | jstr : String → Jv
  | jarr : List Jv → Jv
  | jobj : List (String × Jv) → Jv

/-- Property lookup on a JSON object (first binding wins; the exporters below
emit each key at most once). -/
def jgetField : List (String × Jv) → String → Option Jv
  | [], _ => none
  | (k, v) :: rest, key => if k = key then some v else jgetField rest key

/-- Parser `z.string()`: accepts exactly JSON strings. -/
def zString : Jv → Option String
  | .jstr s => some s
  | _ => none

/-- Parser `z.number()`: accepts exactly JSON numbers. -/
def zNumber : Jv → Option ℚ
  | .jnum q => some q
  | _ => none

/-- A required field of a zod object: the key must be present and parse. -/
def zReq {α : Type} (fields : List (String × Jv)) (k : String) (p : Jv → Option α) :
    Option α :=
  (jgetField fields k).bind p

/-- A field with `.optional()`: an absent key yields `none`; a present key must
parse (in particular `null` is rejected, as zod's `.optional()` does). -/
def zOpt {α : Type} (fields : List (String × Jv)) (k : String) (p : Jv → Option α) :
    Option (Option α) :=
  match jgetField fields k with
  | none => some none
  | some v => (p v).map some

/-- Parser `z.enum(['click', 'type', 'capture'])`: unknown tags are rejected. -/
def parseActionType (j : Jv) : Option ActionType :=
  match j with
  | .jstr "click" => some ActionType.click
  | .jstr "type" => some ActionType.type
  | .jstr "capture" => some ActionType.capture
  | _ => none

/-- The `coordinates` sub-object of `recordedActionSchema`: `x` and `y` required numbers. -/
def parseCoordinates (j : Jv) : Option Coordinates :=
  match j with
  | .jobj f =>
      match zReq f "x" zNumber, zReq f "y" zNumber with
      | some x, some y => some ⟨x, y⟩
      | _, _ => none
  | _ => none

/-- The `element` sub-object of `recordedActionSchema`: three optional strings. -/
def parseElementInfo (j : Jv) : Option ElementInfo :=
  match j with
  | .jobj f =>
      match zOpt f "id" zString, zOpt f "text" zString, zOpt f "tagName" zString with
      | some i, some t, some g => some ⟨i, t, g⟩
      | _, _, _ => none
  | _ => none

/-- Parser `recordedActionSchema.parse` from `shared/schema.ts`: a zod object with a
required enum `type`, required string `timestamp`, and optional
`coordinates` / `element` / `text` / `content` / `description`; unknown keys
are stripped. -/
def parseRecordedAction (j : Jv) : Option RecordedAction :=
  match j with
  | .jobj f =>
      match zReq f "type" parseActionType, zReq f "timestamp" zString,
            zOpt f "coordinates" parseCoordinates, zOpt f "element" parseElementInfo,
            zOpt f "text" zString, zOpt f "content" zString, zOpt f "description" zString with
      | some ty, some ts, some co, some el, some tx, some ct, some de =>
          some ⟨ty, ts, co, el, tx, ct, de⟩
      | _, _, _, _, _, _, _ => none
  | _ => none

/-- Parser `z.array(recordedActionSchema)`: every element must parse. -/
def parseActionList : List Jv → Option (List RecordedAction)
  | [] => some []
  | j :: js =>
      match parseRecordedAction j, parseActionList js with
      | some a, some as' => some (a :: as')
      | _, _ => none

/-- The string tag `JSON.stringify` writes for each `ActionType`. -/
def ActionType.toTag : ActionType → String
  | ActionType.click => "click"
  | ActionType.type => "type"
  | ActionType.capture => "capture"

/-- Since `JSON.stringify` omits object entries whose value is `undefined`: an
absent optional field contributes no key. -/
def encodeOptField (k : String) (o : Option Jv) : List (String × Jv) :=
  match o with
  | none => []
  | some v => [(k, v)]

/-- JSON form of a `coordinates` value. -/
def Coordinates.toJv (c : Coordinates) : Jv :=
  .jobj [("x", .jnum c.x), ("y", .jnum c.y)]

/-- JSON form of an `element` value. -/
def ElementInfo.toJv (e : ElementInfo) : Jv :=
  .jobj (encodeOptField "id" (e.id.map .jstr) ++
         encodeOptField "text" (e.text.map .jstr) ++
         encodeOptField "tagName" (e.tagName.map .jstr))

/-- JSON form of a `RecordedAction`, as `JSON.stringify` serializes the runtime
object: present fields only. -/
def RecordedAction.toJv (a : RecordedAction) : Jv :=
  .jobj ([("type", .jstr a.type.toTag), ("timestamp", .jstr a.timestamp)] ++
         encodeOptField "coordinates" (a.coordinates.map Coordinates.toJv) ++
         encodeOptField "element" (a.element.map ElementInfo.toJv) ++
         encodeOptField "text" (a.text.map .jstr) ++
         encodeOptField "content" (a.content.map .jstr) ++
         encodeOptField "description" (a.description.map .jstr))

/-- The export object built by `exportToJson` in `client/src/pages/Home.tsx`
(lines 685–699): `{ timestamp, title, description, actions }`. -/
def exportJsonValue (now title descr : String) (actions : List RecordedAction) : Jv :=
  .jobj [("timestamp", .jstr now), ("title", .jstr title),
         ("description", .jstr descr),
         ("actions", .jarr (actions.map RecordedAction.toJv))]

/-- Parser `exportDataSchema.parse` from `shared/schema.ts`: requires a string
`timestamp` and an array of valid actions; other keys (`title`,
`description`) are stripped by zod's default object behaviour. -/
def parseExportData (j : Jv) : Option (String × List RecordedAction) :=
  match j with
  | .jobj f =>
      match zReq f "timestamp" zString,
            zReq f "actions" (fun v => match v with | .jarr xs => parseActionList xs | _ => none) with
      | some ts, some as' => some (ts, as')
      | _, _ => none
  | _ => none

lemma parseElementInfo_toJv (e : ElementInfo) : parseElementInfo e.toJv = some e := by
  obtain ⟨i, t, g⟩ := e
  cases i <;> cases t <;> cases g <;> rfl

lemma parseCoordinates_toJv (c : Coordinates) : parseCoordinates c.toJv = some c := rfl

lemma parseRecordedAction_toJv (a : RecordedAction) : parseRecordedAction a.toJv = some a := by
  obtain ⟨ty, ts, co, el, tx, ct, de⟩ := a
  cases co <;> cases el <;> cases tx <;> cases ct <;> cases de <;>
    cases ty <;>
    simp [parseRecordedAction, RecordedAction.toJv, encodeOptField, zReq, zOpt,
          jgetField, parseActionType, zString, ActionType.toTag,
          parseCoordinates_toJv, parseElementInfo_toJv]

lemma parseActionList_map_toJv (actions : List RecordedAction) :
    parseActionList (actions.map RecordedAction.toJv) = some actions := by
  induction actions with
  | nil => rfl
  | cons a rest ih => simp [parseActionList, parseRecordedAction_toJv, ih]

/-- C2: decoding the JSON export reproduces the action sequence exactly —
same actions, same order, with the wrapper's `timestamp` also recovered. -/
theorem export_json_round_trip :
    ∀ (now title descr : String) (actions : List RecordedAction),
      parseExportData (exportJsonValue now title descr actions) = some (now, actions) := by
  intro now title descr actions
  simp [parseExportData, exportJsonValue, zReq, jgetField, zString,
        parseActionList_map_toJv]

/-- JS truthiness of an optional string: absent and `""` are both falsy. -/
def strTruthy (o : Option String) : Option String :=
  match o with
  | some s => if s = "" then none else some s
  | none => none

/-- Template interpolation `${o}` of a possibly-undefined string: `undefined` prints
as the text `undefined`. -/
def strDisplay (o : Option String) : String :=
  match o with
  | some s => s
  | none => "undefined"

/-- JS printing of a JS number: integral values print with no
decimal point.  (Non-integral rationals use the Lean `ℚ` printer; the
claims only exercise integral coordinates.) -/
def jsNumToString (q : ℚ) : String :=
  if q.den = 1 then toString q.num else toString q

/-- Template interpolation `${c?.x}` of a possibly-missing number. -/
def numDisplay (c : Option ℚ) : String :=
  match c with
  | some q => jsNumToString q
  | none => "undefined"

/-- Truncation `text.substring(0, 20) + (text.length > 20 ? '...' : '')`. -/
def truncate20 (t : String) : String :=
  t.take 20 ++ (if 20 < t.length then "..." else "")

/-- The `<ref>` part of a click description, shared verbatim by the PDF/HTML
table synthesis and the fallback: `#id` if `id` is truthy, else the quoted
truncated `text` if truthy, else `tagName || 'element'`. -/
def clickElementRef (el : Option ElementInfo) : String :=
  match strTruthy (el.bind ElementInfo.id) with
  | some i => "#" ++ i
  | none =>
      match strTruthy (el.bind ElementInfo.text) with
      | some t => "\"" ++ truncate20 t ++ "\""
      | none =>
          match strTruthy (el.bind ElementInfo.tagName) with
          | some g => g
          | none => "element"

/-- The `actionDesc` synthesized for a table row by `exportToPdf`
(`client/src/pages/Home.tsx` lines 739–762 and the identical code in
`client/src/pages/SharedRecording.tsx`). -/
def tableActionDesc (action : RecordedAction) : String :=
  match action.type with
  | ActionType.click =>
      "Click on " ++ clickElementRef action.element ++ " at (" ++
        numDisplay (action.coordinates.map Coordinates.x) ++ ", " ++
        numDisplay (action.coordinates.map Coordinates.y) ++ ")"
  | ActionType.type => "Type \"" ++ strDisplay action.text ++ "\" in input field"
  | ActionType.capture =>
      "Capture page state (" ++
        toString (match action.content with | some c => c.length | none => 0) ++ " chars)"

/-- Function `getFallbackDescription` from `lib/aiDescriber` (src/unnamed/part_002,
lines 81–101): the deterministic fallback used when the external description
service is unavailable.  Note the wording differs from the table rows:
`Click on the <ref> at position (x, y)`, `Type "…" in the input field`,
`Capture the current state of the page (N characters)`. -/
def getFallbackDescription (action : RecordedAction) : String :=
  match action.type with
  | ActionType.click =>
      "Click on the " ++ clickElementRef action.element ++ " at position (" ++
        jsNumToString ((action.coordinates.map Coordinates.x).getD 0) ++ ", " ++
        jsNumToString ((action.coordinates.map Coordinates.y).getD 0) ++ ")"
  | ActionType.type => "Type \"" ++ (action.text.getD "") ++ "\" in the input field"
  | ActionType.capture =>
      "Capture the current state of the page (" ++
        toString (match action.content with | some c => c.length | none => 0) ++ " characters)"

/-- The claim's concrete click: `element.id = "submit"`, coordinates `(10, 20)`. -/
def clickSubmit : RecordedAction :=
  mkClickAction "t0" 10 20 (some ⟨some "submit", none, none⟩)

/-- C8 counterexample: the deterministic fallback synthesizer does not
produce the table-row string `Click on #submit at (10, 20)` — it produces
`Click on the #submit at position (10, 20)`. -/
theorem fallback_desc_not_table_format :
    getFallbackDescription clickSubmit = "Click on the #submit at position (10, 20)" ∧
    getFallbackDescription clickSubmit ≠ "Click on #submit at (10, 20)" := by
  constructor
  · rfl
  · decide

/-- C8 amended: both synthesizers are pure (hence deterministic, no network);
on the claim's click the table-row synthesizer yields exactly
`Click on #submit at (10, 20)` while the fallback yields
`Click on the #submit at position (10, 20)` — similar rules, different
wording, so they are not the same format. -/
theorem table_and_fallback_desc_values :
    tableActionDesc clickSubmit = "Click on #submit at (10, 20)" ∧
    getFallbackDescription clickSubmit = "Click on the #submit at position (10, 20)" ∧
    tableActionDesc clickSubmit ≠ getFallbackDescription clickSubmit := by
  refine ⟨rfl, rfl, by decide⟩

/-- One row of the actions table: `[index + 1, action.type, actionDesc, localTime]`. -/
structure TableRow where
  idx : ℕ
  tag : String
  desc : String
  time : String
deriving DecidableEq, Repr

/-- The `tableData` built by `exportToPdf`: one row per action, in order.
`toLocaleTimeString` is abstracted as `locTime`. -/
def tableRows (locTime : String → String) (actions : List RecordedAction) : List TableRow :=
  actions.enum.map (fun p => ⟨p.1 + 1, p.2.type.toTag, tableActionDesc p.2, locTime p.2.timestamp⟩)

/-- Filter `actions.filter(a => a.type === 'capture' && a.content)`: capture actions
with truthy (present, non-empty) content. -/
def captureActionsOf (actions : List RecordedAction) : List RecordedAction :=
  actions.filter (fun a => a.type == ActionType.capture && !(a.content.getD "").isEmpty)

/-- Output produced for one capture of the PDF capture loop: either the
rendered image page with its step caption, or the in-document red error
text written by the `catch` branch. -/
inductive CapturePage where
  | image (caption : String) (timeCaption : String) (png : String) : CapturePage
  | renderError (msg : String) : CapturePage
deriving DecidableEq, Repr

/-- Whether a capture slot holds the error marker. -/
def CapturePage.isRenderError : CapturePage → Bool
  | .renderError _ => true
  | _ => false

/-- The body of the per-capture loop in `exportToPdf` (`Home.tsx` lines
797–852, `SharedRecording.tsx` lines 199–255): render the capture's content;
on success emit the image page captioned `Capture #N - Step N` (N from
`actions.findIndex`) with the capture's timestamp; on failure the `catch`
branch emits `Error rendering capture: <message>` in red and the loop
continues with the next capture.  `render` abstracts `html2canvas`,
returning either the PNG data or the thrown error's message. -/
def renderCapture (render : String → Except String String) (locTime : String → String)
    (actions : List RecordedAction) (capture : RecordedAction) : CapturePage :=
  match render (capture.content.getD "") with
  | .ok canvas =>
      let captureIndex := (actions.findIdx (fun a => a == capture)) + 1
      .image ("Capture #" ++ toString captureIndex ++ " - Step " ++ toString captureIndex)
        (locTime capture.timestamp) canvas
  | .error e => .renderError ("Error rendering capture: " ++ e)

/-- Function `exportToPdf` modelled as a pure function: `none` when the guard
`actions.length === 0` refuses the export, otherwise the table rows (always
all of them) plus one `CapturePage` per truthy capture. -/
def exportToPdfModel (render : String → Except String String) (locTime : String → String)
    (actions : List RecordedAction) : Option (List TableRow × List CapturePage) :=
  if actions.isEmpty then none
  else some (tableRows locTime actions,
             (captureActionsOf actions).map (renderCapture render locTime actions))

/-- Three captures for the claim's scenario. -/
def acts3 : List RecordedAction :=
  [mkCaptureAction "t1" "c1", mkCaptureAction "t2" "c2", mkCaptureAction "t3" "c3"]

/-- A renderer that fails exactly on the second capture's content. -/
def renderFail2 (s : String) : Except String String :=
  if s = "c2" then Except.error "boom" else Except.ok ("png:" ++ s)

/-- C3: the PDF export catches per-capture render failures inside the loop.
For every action list and renderer, the export yields a table row for every
action and one slot per truthy capture, and a slot is the red error marker
exactly when rendering that capture failed; in the 3-capture scenario with
the 2nd failing, all 3 slots are produced and only the 2nd carries the
error text. -/
theorem export_pdf_capture_isolation :
    (∀ (render : String → Except String String) (locTime : String → String)
        (actions : List RecordedAction), actions ≠ [] →
      ∃ rows pages, exportToPdfModel render locTime actions = some (rows, pages) ∧
        rows.length = actions.length ∧
        pages = (captureActionsOf actions).map (renderCapture render locTime actions) ∧
        ∀ c ∈ captureActionsOf actions,
          ((renderCapture render locTime actions c).isRenderError = true ↔
            ∃ e, render (c.content.getD "") = Except.error e)) ∧
    exportToPdfModel renderFail2 (fun s => s) acts3 =
      some ([⟨1, "capture", "Capture page state (2 chars)", "t1"⟩,
             ⟨2, "capture", "Capture page state (2 chars)", "t2"⟩,
             ⟨3, "capture", "Capture page state (2 chars)", "t3"⟩],
            [CapturePage.image "Capture #1 - Step 1" "t1" "png:c1",
             CapturePage.renderError "Error rendering capture: boom",
             CapturePage.image "Capture #3 - Step 3" "t3" "png:c3"]) := by
  constructor
  · intro render locTime actions h
    refine ⟨tableRows locTime actions,
            (captureActionsOf actions).map (renderCapture render locTime actions), ?_, ?_, rfl, ?_⟩
    · simp [exportToPdfModel, h]
    · simp [tableRows]
    · intro c _
      unfold renderCapture
      cases hr : render (c.content.getD "") with
      | ok v => simp [CapturePage.isRenderError, hr]
      | error e => simp [CapturePage.isRenderError, hr]
  · rfl

/-- Witness for C3 at the concrete 3-capture scenario. -/
theorem export_pdf_capture_isolation_witness :
    acts3 ≠ [] ∧
    (∃ rows pages, exportToPdfModel renderFail2 (fun s => s) acts3 = some (rows, pages) ∧
      rows.length = acts3.length ∧
      pages = (captureActionsOf acts3).map (renderCapture renderFail2 (fun s => s) acts3) ∧
      ∀ c ∈ captureActionsOf acts3,
        ((renderCapture renderFail2 (fun s => s) acts3 c).isRenderError = true ↔
          ∃ e, renderFail2 (c.content.getD "") = Except.error e)) :=
  ⟨by decide, export_pdf_capture_isolation.1 renderFail2 (fun s => s) acts3 (by decide)⟩

/-- Rounding `(ms / 1000).toFixed(1)` for integral millisecond counts in the seconds
branch: the seconds value rounded (half-up) to one decimal digit.
(`toFixed` rounds the decimal expansion of the IEEE double; on the exact
rational this is half-up rounding of tenths, which agrees everywhere except
where the double sits just below a tie.) -/
def toFixedOneDigit (ms : ℤ) : String :=
  let tenths := (ms + 50) / 100
  toString (tenths / 10) ++ "." ++ toString (tenths % 10)

/-- Function `formatDuration` from the shared-recording page (src/unnamed/part_000,
lines 86–96): `<1000` → integer milliseconds, `<60000` → seconds to one
decimal, else whole minutes and floored whole seconds. -/
def formatDuration (ms : ℤ) : String :=
  if ms < 1000 then toString ms ++ "ms"
  else if ms < 60000 then toFixedOneDigit ms ++ "s"
  else toString (ms / 60000) ++ "m " ++ toString ((ms % 60000) / 1000) ++ "s"

/-- JS `Math.round`: round half toward `+∞`. -/
def jsRound (q : ℚ) : ℤ := ⌊q + 1 / 2⌋

/-- Function `totalDurationSeconds` from `client/src/pages/SharedRecording.tsx`
(lines 34–44): 30 as the fixed fallback below 2 actions, otherwise
`Math.round((last - first) / 1000)`. -/
def totalDurationSeconds (getTime : String → ℤ) (actions : List RecordedAction) : ℤ :=
  match actions with
  | f :: g :: rest =>
      jsRound (((getTime ((g :: rest).getLastD f).timestamp - getTime f.timestamp : ℤ) : ℚ) / 1000)
  | _ => 30

/-- Function `getTimeElapsed` from `client/src/components/StepCard.tsx` (lines 23–45):
`null` without a previous timestamp or when the difference is negative;
otherwise the formatted difference (note the ` seconds` wording of the
middle branch in this component). -/
def getTimeElapsed (getTime : String → ℤ) (previousActionTimestamp : Option String)
    (action : RecordedAction) : Option String :=
  match previousActionTimestamp with
  | none => none
  | some p =>
      let diffMs := getTime action.timestamp - getTime p
      if diffMs < 0 then none
      else if diffMs < 1000 then some (toString diffMs ++ "ms")
      else if diffMs < 60000 then some (toFixedOneDigit diffMs ++ " seconds")
      else some (toString (diffMs / 60000) ++ "m " ++ toString ((diffMs % 60000) / 1000) ++ "s")

/-- A timeline entry of `actionTimings` (src/unnamed/part_000, lines 47–84). -/
structure TimingEntry where
  index : ℕ
  duration : ℤ
  durationFormatted : String
  percentage : ℚ
deriving DecidableEq, Repr

/-- The per-pair loop of `actionTimings`: one entry per adjacent pair, with
`percentage` initialised to 0. -/
def pairDurations (getTime : String → ℤ) :
    RecordedAction → List RecordedAction → ℕ → List TimingEntry
  | _, [], _ => []
  | prev, cur :: rest, i =>
      let d := getTime cur.timestamp - getTime prev.timestamp
      ⟨i, d, formatDuration d, 0⟩ :: pairDurations getTime cur rest (i + 1)

/-- Function `actionTimings` from src/unnamed/part_000 (lines 47–84): durations of
adjacent pairs, then percentages of the summed total when that total is
positive. -/
def actionTimings (getTime : String → ℤ) (actions : List RecordedAction) : List TimingEntry :=
  match actions with
  | f :: g :: rest =>
      let result := pairDurations getTime f (g :: rest) 1
      let totalDuration : ℤ := (result.map TimingEntry.duration).sum
      if 0 < totalDuration then
        result.map (fun e => { e with percentage := ((e.duration : ℚ) / (totalDuration : ℚ)) * 100 })
      else result
  | _ => []

/-- The scale applied to `diffMs` by `getTimeElapsedPercentage` in
`client/src/components/StepCard.tsx` (lines 49–82), including the `<= 0 → 0`
early return and the 60 s cap of the last bucket. -/
def timeElapsedScale (diffMs : ℚ) : ℚ :=
  if diffMs ≤ 0 then 0
  else if diffMs < 1000 then 1 + diffMs / 1000 * 9
  else if diffMs < 5000 then 10 + (diffMs - 1000) / 4000 * 20
  else if diffMs < 15000 then 30 + (diffMs - 5000) / 10000 * 30
  else if diffMs < 30000 then 60 + (diffMs - 15000) / 15000 * 25
  else 85 + min 15 ((diffMs - 30000) / (60000 - 30000) * 15)

/-- Function `getTimeElapsedPercentage` itself: 0 without a previous timestamp,
otherwise the scale of the timestamp difference. -/
def getTimeElapsedPercentage (getTime : String → ℤ) (previousActionTimestamp : Option String)
    (action : RecordedAction) : ℚ :=
  match previousActionTimestamp with
  | none => 0
  | some p => timeElapsedScale ((getTime action.timestamp - getTime p : ℤ) : ℚ)

/-- Modelled from the spec's words for the refinement comparison of C4: each
bucket `[0,1s)→[1,10]`, `[1s,5s)→[10,30]`, `[5s,15s)→[30,60]`,
`[15s,30s)→[60,85]`, `[30s,∞)→[85,100]` interpolates linearly by the
fraction of the duration inside the bucket, with durations beyond 60 s
treated as 60 s. -/
def specBucketWeight (d : ℚ) : ℚ :=
  if d < 1000 then 1 + (d - 0) / (1000 - 0) * 9
  else if d < 5000 then 10 + (d - 1000) / (5000 - 1000) * 20
  else if d < 15000 then 30 + (d - 5000) / (15000 - 5000) * 30
  else if d < 30000 then 60 + (d - 15000) / (30000 - 15000) * 25
  else 85 + (min d 60000 - 30000) / (60000 - 30000) * 15

/-- The bucket a duration falls into, per the claim's breakpoints. -/
def bucketOf (d : ℚ) : ℕ :=
  if d < 1000 then 0
  else if d < 5000 then 1
  else if d < 15000 then 2
  else if d < 30000 then 3
  else 4

/-- C5: `formatDuration` uses integer milliseconds below 1 s, seconds to one
(half-up rounded) decimal below 1 min, and otherwise whole minutes plus
floored — not rounded — whole seconds; in particular 999 ms → `999ms`,
1000 ms → `1.0s`, 65000 ms → `1m 5s`, 90999 ms → `1m 30s`. -/
theorem formatDuration_spec :
    (∀ ms : ℤ, ms < 1000 → formatDuration ms = toString ms ++ "ms") ∧
    (∀ ms : ℤ, 1000 ≤ ms → ms < 60000 →
      formatDuration ms =
        toString (⌊(ms : ℚ) / 100 + 1 / 2⌋ / 10) ++ "." ++
          toString (⌊(ms : ℚ) / 100 + 1 / 2⌋ % 10) ++ "s") ∧
    (∀ ms : ℤ, 60000 ≤ ms →
      formatDuration ms =
        toString (Int.fdiv ms 60000) ++ "m " ++ toString (Int.fdiv (ms % 60000) 1000) ++ "s") ∧
    formatDuration 999 = "999ms" ∧ formatDuration 1000 = "1.0s" ∧
    formatDuration 65000 = "1m 5s" ∧ formatDuration 90999 = "1m 30s" := by
  refine ⟨?_, ?_, ?_, by decide, by decide, by decide, by decide⟩
  · intro ms h
    simp [formatDuration, h]
  · intro ms h1 h2
    have hkey : ⌊(ms : ℚ) / 100 + 1 / 2⌋ = (ms + 50) / 100 := by
      have hcast : (ms : ℚ) / 100 + 1 / 2 = ((ms + 50 : ℤ) : ℚ) / ((100 : ℕ) : ℚ) := by
        push_cast
        ring
      rw [hcast, Rat.floor_intCast_div_natCast]
      norm_num
    have hge : ¬ ms < 1000 := by omega
    simp only [formatDuration, hge, if_false, h2, if_true, toFixedOneDigit, hkey]
  · intro ms h
    have h1 : ¬ ms < 1000 := by omega
    have h2 : ¬ ms < 60000 := by omega
    rw [Int.fdiv_eq_ediv ms (by norm_num), Int.fdiv_eq_ediv _ (by norm_num)]
    simp [formatDuration, h1, h2]

/-- The claim's 2-action demo: second action 1500 ms after the first. -/
def demoTime (s : String) : ℤ := if s = "b" then 1500 else 0

/-- Two actions with timestamps `"a"` and `"b"`. -/
def demoTwoActions : List RecordedAction :=
  [mkClickAction "a" 0 0 none, mkClickAction "b" 0 0 none]

/-- C9: `totalDurationSeconds` returns the fixed fallback 30 below 2 actions,
and otherwise `Math.round((last - first) / 1000)`; for 2 actions 1500 ms
apart it returns 2. -/
theorem totalDurationSeconds_spec :
    (∀ (getTime : String → ℤ) (actions : List RecordedAction), actions.length < 2 →
      totalDurationSeconds getTime actions = 30) ∧
    (∀ (getTime : String → ℤ) (actions : List RecordedAction) (f l : RecordedAction),
      actions.head? = some f → actions.getLast? = some l → 2 ≤ actions.length →
      totalDurationSeconds getTime actions =
        ⌊((getTime l.timestamp - getTime f.timestamp : ℤ) : ℚ) / 1000 + 1 / 2⌋) ∧
    totalDurationSeconds demoTime demoTwoActions = 2 := by
  refine ⟨?_, ?_, ?_⟩
  case refine_3 =>
    norm_num [totalDurationSeconds, demoTwoActions, demoTime, mkClickAction, jsRound]
    rw [if_neg (by decide : ¬ ("a" : String) = "b")]
    norm_num
  · intro getTime actions h
    match actions with
    | [] => rfl
    | [_] => rfl
    | _ :: _ :: _ => simp at h; omega
  · intro getTime actions f l hf hl hlen
    match actions with
    | [] => simp at hf
    | [_] => simp at hlen
    | a :: g :: rest =>
        have ha : a = f := by simpa using hf
        subst ha
        have hlast : (g :: rest).getLast? = some l := by
          rw [List.getLast?_cons_cons] at hl
          exact hl
        have hD : (g :: rest).getLastD a = l := by
          rw [List.getLastD_eq_getLast?, hlast]
          rfl
        simp only [totalDurationSeconds, hD, jsRound]

/-- Witness for C9 at concrete inputs. -/
theorem totalDurationSeconds_spec_witness :
    totalDurationSeconds demoTime [mkClickAction "a" 0 0 none] = 30 ∧
    totalDurationSeconds demoTime demoTwoActions =
      ⌊((demoTime (mkClickAction "b" 0 0 none).timestamp -
          demoTime (mkClickAction "a" 0 0 none).timestamp : ℤ) : ℚ) / 1000 + 1 / 2⌋ :=
  ⟨totalDurationSeconds_spec.1 demoTime [mkClickAction "a" 0 0 none] (by decide),
   totalDurationSeconds_spec.2.1 demoTime demoTwoActions
     (mkClickAction "a" 0 0 none) (mkClickAction "b" 0 0 none) rfl rfl (by decide)⟩

lemma pairDurations_length (getTime : String → ℤ) :
    ∀ (l : List RecordedAction) (prev : RecordedAction) (i : ℕ),
      (pairDurations getTime prev l i).length = l.length := by
  intro l
  induction l with
  | nil => intro prev i; rfl
  | cons cur rest ih => intro prev i; simp [pairDurations, ih]

lemma pairDurations_formatted (getTime : String → ℤ) :
    ∀ (l : List RecordedAction) (prev : RecordedAction) (i : ℕ) (e : TimingEntry),
      e ∈ pairDurations getTime prev l i → e.durationFormatted = formatDuration e.duration := by
  intro l
  induction l with
  | nil => intro prev i e he; simp [pairDurations] at he
  | cons cur rest ih =>
      intro prev i e he
      simp only [pairDurations, List.mem_cons] at he
      rcases he with rfl | he
      · rfl
      · exact ih cur (i + 1) e he

/-- Clock-skewed times for the two demo actions: the second action's
timestamp is 500 ms before the first one's. -/
def skewTime (s : String) : ℤ := if s = "b" then 500 else 1000

/-- C6 counterexample: on two out-of-order actions the timeline entry is
emitted, but its elapsed-time display (`durationFormatted`, rendered
verbatim by the timeline at src/unnamed/part_000 line 712) is the negative
string `"-500ms"` — the pair's display is not treated as unknown. -/
theorem actionTimings_renders_negative_duration :
    actionTimings skewTime demoTwoActions =
      [{ index := 1, duration := -500, durationFormatted := "-500ms", percentage := 0 }] := by
  decide

/-- C6 amended: the timeline emits one entry per adjacent pair (count
`length - 1`) and never throws, and the `StepCard` elapsed display returns
`null` for a negative difference; but `actionTimings` formats every
duration — negative ones included — via `formatDuration`, so the shared
timeline displays negative strings instead of treating them as unknown. -/
theorem timeline_negative_duration_behaviour :
    (∀ (getTime : String → ℤ) (actions : List RecordedAction), 2 ≤ actions.length →
      (actionTimings getTime actions).length = actions.length - 1) ∧
    (∀ (getTime : String → ℤ) (p : String) (a : RecordedAction),
      getTime a.timestamp - getTime p < 0 → getTimeElapsed getTime (some p) a = none) ∧
    (∀ (getTime : String → ℤ) (actions : List RecordedAction) (e : TimingEntry),
      e ∈ actionTimings getTime actions →
        e.durationFormatted = formatDuration e.duration) := by
  refine ⟨?_, ?_, ?_⟩
  · intro getTime actions h
    match actions with
    | [] => simp at h
    | [_] => simp at h
    | f :: g :: rest =>
        simp only [actionTimings]
        split
        · simp [pairDurations_length]
        · simp [pairDurations_length]
  · intro getTime p a h
    simp [getTimeElapsed, h]
  · intro getTime actions e he
    match actions with
    | [] => simp [actionTimings] at he
    | [_] => simp [actionTimings] at he
    | f :: g :: rest =>
        simp only [actionTimings] at he
        split at he
        · rcases List.mem_map.mp he with ⟨e', he', rfl⟩
          exact pairDurations_formatted getTime (g :: rest) f 1 e' he'
        · exact pairDurations_formatted getTime (g :: rest) f 1 e he

/-- Witness for C6 at the concrete skewed pair. -/
theorem timeline_negative_duration_behaviour_witness :
    (actionTimings skewTime demoTwoActions).length = demoTwoActions.length - 1 ∧
    getTimeElapsed skewTime (some "a") (mkClickAction "b" 0 0 none) = none ∧
    TimingEntry.durationFormatted
        { index := 1, duration := -500, durationFormatted := "-500ms", percentage := 0 } =
      formatDuration
        (TimingEntry.duration
          { index := 1, duration := -500, durationFormatted := "-500ms", percentage := 0 }) :=
  ⟨timeline_negative_duration_behaviour.1 skewTime demoTwoActions (by decide),
   timeline_negative_duration_behaviour.2.1 skewTime "a" (mkClickAction "b" 0 0 none) (by decide),
   timeline_negative_duration_behaviour.2.2 skewTime demoTwoActions
     { index := 1, duration := -500, durationFormatted := "-500ms", percentage := 0 }
     (by decide)⟩

/-- C4 counterexample: at duration 0 (a non-negative duration) the code
returns 0, while the claimed bucket scale gives 1; 0 is outside `[1,100]`. -/
theorem timeElapsedScale_zero_counterexample :
    timeElapsedScale 0 = 0 ∧ specBucketWeight 0 = 1 ∧ ¬ (1 ≤ timeElapsedScale 0) := by
  norm_num [timeElapsedScale, specBucketWeight]

/-- C4 amended: for every strictly positive duration the code's scale equals
the claimed piecewise-linear bucket scale (60 s cap included), lies in
`[1,100]`, and is monotone within each bucket; at `d ≤ 0` — in particular at
the non-negative duration 0 — the code returns 0 instead. -/
theorem timeElapsedScale_spec :
    (∀ d : ℚ, 0 < d → timeElapsedScale d = specBucketWeight d) ∧
    (∀ d : ℚ, 0 < d → 1 ≤ timeElapsedScale d ∧ timeElapsedScale d ≤ 100) ∧
    (∀ d1 d2 : ℚ, 0 < d1 → d1 < d2 → bucketOf d1 = bucketOf d2 →
      timeElapsedScale d1 ≤ timeElapsedScale d2) ∧
    timeElapsedScale 0 = 0 := by
  refine ⟨?_, ?_, ?_, by norm_num [timeElapsedScale]⟩
  · intro d hd
    unfold timeElapsedScale specBucketWeight
    rw [if_neg (not_le.mpr hd)]
    split_ifs with h1 h2 h3 h4
    · ring
    · ring
    · ring
    · ring
    · push_neg at h4
      by_cases h60 : d ≤ 60000
      · rw [min_eq_left h60, min_eq_right (by linarith : (d - 30000) / (60000 - 30000) * 15 ≤ 15)]
      · push_neg at h60
        rw [min_eq_right h60.le,
            min_eq_left (by linarith : (15 : ℚ) ≤ (d - 30000) / (60000 - 30000) * 15)]
        norm_num
  · intro d hd
    unfold timeElapsedScale
    rw [if_neg (not_le.mpr hd)]
    split_ifs with h1 h2 h3 h4
    · constructor <;> linarith
    · constructor <;> linarith
    · constructor <;> linarith
    · constructor <;> linarith
    · push_neg at h4
      constructor
      · have h0 : (0 : ℚ) ≤ min 15 ((d - 30000) / (60000 - 30000) * 15) :=
          le_min (by norm_num) (by linarith)
        linarith
      · have h15 : min 15 ((d - 30000) / (60000 - 30000) * 15) ≤ 15 := min_le_left _ _
        linarith
  · intro d1 d2 h1 h12 hb
    have h2 : (0 : ℚ) < d2 := lt_trans h1 h12
    unfold bucketOf at hb
    unfold timeElapsedScale
    rw [if_neg (not_le.mpr h1), if_neg (not_le.mpr h2)]
    split_ifs at hb ⊢ <;>
      first
        | linarith
        | exact absurd hb (by decide)
        | (have hx : (d1 - 30000) / (60000 - 30000) * 15 ≤ (d2 - 30000) / (60000 - 30000) * 15 := by
             linarith
           have hm := min_le_min (le_refl (15 : ℚ)) hx
           linarith)

/-- Witness for C4 at concrete durations. -/
theorem timeElapsedScale_spec_witness :
    timeElapsedScale 500 = specBucketWeight 500 ∧
    (1 ≤ timeElapsedScale 2000 ∧ timeElapsedScale 2000 ≤ 100) ∧
    timeElapsedScale 7000 ≤ timeElapsedScale 8000 :=
  ⟨timeElapsedScale_spec.1 500 (by norm_num),
   timeElapsedScale_spec.2.1 2000 (by norm_num),
   timeElapsedScale_spec.2.2.1 7000 8000 (by norm_num) (by norm_num)
     (by norm_num [bucketOf])⟩

/-- A stored recording session as the store keeps it (`recordingSessions`
table / the `MemStorage` map in `server/storage.ts`); `createdAt`/`updatedAt`
are abstract instants. -/
structure StoredSession where
  id : String
  title : String
  description : Option String
  createdAt : ℤ
  updatedAt : ℤ
  actions : List RecordedAction
  actionsCount : ℤ
  hasCaptures : Bool
  isShared : Bool
  shareUrl : Option String
deriving DecidableEq, Repr

/-- Predicate `session.actions.some(action => action.type === 'capture')`. -/
def actionsHaveCapture (actions : List RecordedAction) : Bool :=
  actions.any (fun a => a.type == ActionType.capture)

/-- A validated `updateRecordingSessionSchema` patch: every column optional
(`.partial()`); an absent field leaves the stored value untouched when the
patch is spread over the session. -/
structure UpdatePatch where
  title : Option String
  description : Option (Option String)
  actions : Option (List RecordedAction)
  actionsCount : Option ℤ
  hasCaptures : Option Bool
  isShared : Option Bool
  shareUrl : Option (Option String)
deriving DecidableEq, Repr

/-- The all-absent patch. -/
def emptyPatch : UpdatePatch :=
  { title := none, description := none, actions := none, actionsCount := none,
    hasCaptures := none, isShared := none, shareUrl := none }

/-- Method `MemStorage.createRecordingSession` (`server/storage.ts` lines 61–80):
derived fields are computed from the supplied actions. -/
def memCreateSession (id : String) (now : ℤ) (title : String) (descr : Option String)
    (actions : List RecordedAction) : StoredSession :=
  { id := id, title := title, description := descr, createdAt := now, updatedAt := now,
    actions := actions, actionsCount := actions.length,
    hasCaptures := actionsHaveCapture actions, isShared := false, shareUrl := none }

/-- Method `MemStorage.updateRecordingSession` (`server/storage.ts` lines 82–94):
`{ ...session, ...data, updatedAt: new Date() }` — the patch is spread over
the session with no recomputation of `actionsCount`/`hasCaptures`. -/
def memUpdateSession (session : StoredSession) (data : UpdatePatch) (now : ℤ) : StoredSession :=
  { id := session.id,
    title := data.title.getD session.title,
    description := data.description.getD session.description,
    createdAt := session.createdAt,
    updatedAt := now,
    actions := data.actions.getD session.actions,
    actionsCount := data.actionsCount.getD session.actionsCount,
    hasCaptures := data.hasCaptures.getD session.hasCaptures,
    isShared := data.isShared.getD session.isShared,
    shareUrl := data.shareUrl.getD session.shareUrl }

/-- Method `DatabaseStorage.createRecordingSession` (`server/storage.ts` lines
153–168): inserts with `hasCaptures` and `actionsCount` computed from the
supplied actions. -/
def dbCreateSession (id : String) (now : ℤ) (title : String) (descr : Option String)
    (actions : List RecordedAction) : StoredSession :=
  { id := id, title := title, description := descr, createdAt := now, updatedAt := now,
    actions := actions, actionsCount := actions.length,
    hasCaptures := actionsHaveCapture actions, isShared := false, shareUrl := none }

/-- Method `DatabaseStorage.updateRecordingSession` (`server/storage.ts` lines
170–190): when the patch carries `actions`, `actionsCount` and `hasCaptures`
are overwritten with values recomputed from those actions before the row is
updated. -/
def dbUpdateSession (session : StoredSession) (data : UpdatePatch) (now : ℤ) : StoredSession :=
  let updateData :=
    match data.actions with
    | some acts =>
        { data with actionsCount := some (acts.length : ℤ),
                    hasCaptures := some (actionsHaveCapture acts) }
    | none => data
  memUpdateSession session updateData now

/-- The derived-fields invariant of §3 of the spec. -/
def derivedFieldsOk (s : StoredSession) : Prop :=
  s.actionsCount = s.actions.length ∧ s.hasCaptures = actionsHaveCapture s.actions

/-- A stored session created with a single click action. -/
def staleSession : StoredSession :=
  memCreateSession "s1" 0 "Rec" none [mkClickAction "a" 0 0 none]

/-- A patch that replaces the actions (now including a capture) without
supplying `actionsCount`/`hasCaptures`. -/
def actionsPatch : UpdatePatch :=
  { emptyPatch with actions := some [mkClickAction "a" 0 0 none, mkCaptureAction "b" "c"] }

/-- C7 counterexample: `MemStorage.updateRecordingSession` spreads the patch
without recomputing derived fields, so updating the actions to a 2-element
list containing a capture leaves `actionsCount = 1` and
`hasCaptures = false` in the stored session. -/
theorem memUpdate_stale_derived_fields :
    ¬ derivedFieldsOk (memUpdateSession staleSession actionsPatch 5) ∧
    (memUpdateSession staleSession actionsPatch 5).actionsCount = 1 ∧
    (memUpdateSession staleSession actionsPatch 5).actions.length = 2 ∧
    (memUpdateSession staleSession actionsPatch 5).hasCaptures = false ∧
    actionsHaveCapture (memUpdateSession staleSession actionsPatch 5).actions = true := by
  refine ⟨?_, by decide, by decide, by decide, by decide⟩
  intro h
  exact absurd h.1 (by decide)

/-- C7 amended: both stores recompute `actionsCount`/`hasCaptures` on
create, and `DatabaseStorage.updateRecordingSession` recomputes them
whenever the patch carries `actions`; but `MemStorage.updateRecordingSession`
does not — it only preserves the invariant when the patch leaves `actions`
and the derived fields untouched. -/
theorem store_derived_fields_recomputed :
    (∀ (id : String) (now : ℤ) (title : String) (descr : Option String)
        (actions : List RecordedAction),
      derivedFieldsOk (memCreateSession id now title descr actions) ∧
      derivedFieldsOk (dbCreateSession id now title descr actions)) ∧
    (∀ (session : StoredSession) (data : UpdatePatch) (now : ℤ)
        (acts : List RecordedAction), data.actions = some acts →
      derivedFieldsOk (dbUpdateSession session data now)) ∧
    (∀ (session : StoredSession) (data : UpdatePatch) (now : ℤ),
      derivedFieldsOk session → data.actions = none → data.actionsCount = none →
      data.hasCaptures = none → derivedFieldsOk (memUpdateSession session data now)) := by
  refine ⟨?_, ?_, ?_⟩
  · intro id now title descr actions
    constructor <;>
      simp [derivedFieldsOk, memCreateSession, dbCreateSession]
  · intro session data now acts ha
    simp [derivedFieldsOk, dbUpdateSession, ha, memUpdateSession]
  · intro session data now hok ha hc hh
    simpa [derivedFieldsOk, memUpdateSession, ha, hc, hh] using hok

/-- Witness for C7 at concrete store operations. -/
theorem store_derived_fields_recomputed_witness :
    (derivedFieldsOk (memCreateSession "s1" 0 "Rec" none demoTwoActions) ∧
     derivedFieldsOk (dbCreateSession "s1" 0 "Rec" none demoTwoActions)) ∧
    derivedFieldsOk (dbUpdateSession staleSession actionsPatch 5) ∧
    derivedFieldsOk (memUpdateSession staleSession emptyPatch 5) :=
  ⟨store_derived_fields_recomputed.1 "s1" 0 "Rec" none demoTwoActions,
   store_derived_fields_recomputed.2.1 staleSession actionsPatch 5
     [mkClickAction "a" 0 0 none, mkCaptureAction "b" "c"] rfl,
   store_derived_fields_recomputed.2.2 staleSession emptyPatch 5
     ⟨by decide, by decide⟩ rfl rfl rfl⟩

/-- Witness for C5 at concrete durations in each branch. -/
theorem formatDuration_spec_witness :
    formatDuration 500 = toString (500 : ℤ) ++ "ms" ∧
    formatDuration 1500 =
      toString (⌊((1500 : ℤ) : ℚ) / 100 + 1 / 2⌋ / 10) ++ "." ++
        toString (⌊((1500 : ℤ) : ℚ) / 100 + 1 / 2⌋ % 10) ++ "s" ∧
    formatDuration 61000 =
      toString (Int.fdiv (61000 : ℤ) 60000) ++ "m " ++
        toString (Int.fdiv ((61000 : ℤ) % 60000) 1000) ++ "s" :=
  ⟨formatDuration_spec.1 500 (by norm_num),
   formatDuration_spec.2.1 1500 (by norm_num) (by norm_num),
   formatDuration_spec.2.2.1 61000 (by norm_num)⟩
